import Mathlib

/-!
Verification of the transport/session core of a Twitter API v2 client.

The development embeds, as executable Lean definitions, the parts of the
repository that the verified properties talk about:

* `Params` and its `Add` / `Set` / `Reset` operations together with the
  query-term encoding (file `twitter.go`);
* the error taxonomy (`GoErr`, mirroring the client's `Error` struct and the
  sentinel errors `ErrStopStreaming` and `io.EOF`, together with the standard
  library's `errors.Is` unwrapping discipline);
* the `Client` operations `start`, `receive`, `finish`, `Call`, `CallRaw`,
  `stream` and `Stream`.

HTTP transport is abstracted as a function from built wire requests to
response outcomes; a response body is given both as raw bytes (a `String`)
and as the sequence of JSON values a decoder would extract from it, so that
the single-shot and streaming consumers of the body can both be expressed.
JSON unmarshalling into a `Reply` is a parameter of the operations, since
the client treats payloads as opaque.
-/

namespace Twitter

/-! ## Params (twitter.go) -/

/-- A parameter multimap, `map[string][]string` in the source, modelled as an
association list with at most one entry per name. -/
abbrev Params : Type := List (String × List String)

/-- Map lookup: the list of values stored under `name`, or `none` when the
map has no entry for `name`. -/
def Params.lookup : Params → String → Option (List String)
  | [], _ => none
  | kv :: rest, name => if kv.1 = name then some kv.2 else Params.lookup rest name

/-- Map assignment `p[name] = vs`: replace the entry for `name`, or append a
fresh entry when none exists. -/
def Params.update : Params → String → List String → Params
  | [], name, vs => [(name, vs)]
  | kv :: rest, name, vs =>
      if kv.1 = name then (name, vs) :: rest else kv :: Params.update rest name vs

/-- `Params.Add`: append the given values to any previously-defined values
for the name.  The source returns immediately when no values are given. -/
def Params.add (p : Params) (name : String) (values : List String) : Params :=
  if values = [] then p
  else Params.update p name ((Params.lookup p name).getD [] ++ values)

/-- `Params.Set`: make the single given value the only value for the name. -/
def Params.set (p : Params) (name value : String) : Params :=
  Params.update p name [value]

/-- `Params.Reset`: remove any existing values for the name. -/
def Params.reset (p : Params) (name : String) : Params :=
  p.filter (fun kv => kv.1 ≠ name)

/-- `strings.Join(values, ",")`: the comma-joined serialization of a value
list, as produced by `addQueryTerms`. -/
def joinComma : List String → String
  | [] => ""
  | [v] => v
  | v :: rest => v ++ "," ++ joinComma rest

/-- The value the encoded query string carries for `name`: `addQueryTerms`
sets each name once, to the comma-join of its values. -/
def Params.queryValue (p : Params) (name : String) : Option String :=
  (Params.lookup p name).map joinComma

/-- The full query string built from the multimap, each entry contributing
`name=joined-values` (percent-encoding is irrelevant to the properties and
omitted). -/
def Params.queryString (p : Params) : String :=
  joinComma (p.map (fun kv => kv.1 ++ "=" ++ joinComma kv.2))

/-! ## The error taxonomy -/

/-- Go `error` values reachable in the client, as a single inductive:

* `noErr` stands for a `nil` error stored in the `Err` field of an `Error`;
* `stopStreaming` is the sentinel `ErrStopStreaming`;
* `eof` is `io.EOF`;
* `other tag` is an arbitrary distinct error value (distinct tags model
  distinct error identities);
* `apiError status data message cause` is the client's `*Error` struct with
  fields `Status`, `Data`, `Message`, `Err`.

Modelled from the spec: the `Error` struct declaration itself is not among
the given source files (only its construction sites are); per the spec it
carries an optional HTTP status, the raw body when received, a phase message
and an optional wrapped underlying cause, and unwrapping follows the cause. -/
inductive GoErr : Type where
  | noErr : GoErr
  | stopStreaming : GoErr
  | eof : GoErr
  | other (tag : String) : GoErr
  | apiError (status : Nat) (data : Option String) (message : String) (cause : GoErr) : GoErr
deriving DecidableEq, Repr

/-- The `Status` field of an error value (zero for non-`*Error` values). -/
def GoErr.statusOf : GoErr → Nat
  | .apiError s _ _ _ => s
  | _ => 0

/-- The `Data` field of an error value (`none` for non-`*Error` values). -/
def GoErr.dataOf : GoErr → Option String
  | .apiError _ d _ _ => d
  | _ => none

/-- The `Message` field of an error value. -/
def GoErr.messageOf : GoErr → String
  | .apiError _ _ m _ => m
  | _ => ""

/-- `errors.Is`: compare with the target, unwrapping through the `Err`
field of `*Error` values (the only errors here with an `Unwrap` method). -/
def errorsIs : GoErr → GoErr → Bool
  | .apiError s d m c, t => decide (GoErr.apiError s d m c = t) || errorsIs c t
  | e, t => decide (e = t)

/-- `errors.Is` on a possibly-`nil` error (`none` is Go's `nil`). -/
def errorsIsO : Option GoErr → GoErr → Bool
  | none, _ => false
  | some e, t => errorsIs e t

/-! ## Requests, responses and replies -/

/-- Rate-limit counters extracted from response headers. -/
structure RateLimit : Type where
  ceiling : Option Nat := none
  remaining : Option Nat := none
  reset : Option Nat := none
deriving DecidableEq, Repr

/-- The decoded reply envelope.  The payload is opaque to the client; the
`rateLimit` field is populated by `finish` from the response headers. -/
structure Reply : Type where
  data : String := ""
  rateLimit : Option RateLimit := none
deriving DecidableEq, Repr

/-- Modelled from the spec: the `types.Request` type is not among the given
source files.  Per the spec it holds a method identifier, a parameter
multimap, an HTTP verb defaulting to GET, and an optional body payload with
its content type. -/
structure Request : Type where
  method : String
  params : Params := []
  httpMethod : String := "GET"
  payload : Option String := none
  contentType : String := ""

/-- Modelled from the spec: `req.URL(base)` resolves the base endpoint,
appends the method path and attaches the encoded query parameters. -/
def Request.url (req : Request) (base : String) : String :=
  if req.params = [] then base ++ "/" ++ req.method
  else base ++ "/" ++ req.method ++ "?" ++ Params.queryString req.params

/-- Modelled from the spec: `req.Body()` yields the body reader, its length
and its content type. -/
def Request.bodyTriple (req : Request) : Option String × Int × String :=
  match req.payload with
  | none => (none, 0, "")
  | some d => (some d, (d.length : Int), req.contentType)

/-- The wire request handed to the HTTP transport: the result of all request
construction (URL resolution, verb, body and content-type attachment). -/
structure HRequest : Type where
  method : String
  url : String
  contentLength : Int
  contentType : Option String
  body : Option String
deriving DecidableEq, Repr

/-- What the streaming decoder reports once the complete JSON values of the
body are exhausted: a clean end of stream (`io.EOF`), or a decode failure. -/
inductive StreamTail : Type where
  | eofEnd : StreamTail
  | decodeFailure (e : GoErr) : StreamTail
deriving DecidableEq, Repr

/-- An HTTP response.  The body is given both as the raw bytes (`body`) read
by the single-shot path, and as the sequence of complete JSON values
(`messages`, then `tail`) the streaming decoder extracts from it. -/
structure Response : Type where
  statusCode : Nat
  status : String
  body : String
  messages : List String := []
  tail : StreamTail := .eofEnd
  headers : List (String × String) := []
deriving DecidableEq, Repr

/-- The default production base URL. -/
def BaseURL : String := "https://api.twitter.com"

/-- The client configuration: an optional authorizer and an optional base
URL override.  The HTTP transport itself is passed as a function parameter
to the operations, and the logging hook is omitted: it never affects
control flow. -/
structure Client : Type where
  authorize : Option (HRequest → Except GoErr HRequest) := none
  baseURL : String := ""

/-- The base URL actually used: the override when set, else the default. -/
def Client.baseURLd (c : Client) : String :=
  if c.baseURL ≠ "" then c.baseURL else BaseURL

/-- The fully-constructed wire request: resolved URL, verb, content length,
and content type attached exactly when the body is non-empty.  This is
everything `start` does to the request before the authorizer runs. -/
def buildHReq (c : Client) (req : Request) : HRequest :=
  let t := req.bodyTriple
  { method := req.httpMethod
    url := req.url c.baseURLd
    contentLength := t.2.1
    contentType := if t.2.1 > 0 then some t.2.2 else none
    body := t.1 }

/-- `Client.start`: build the wire request, run the authorizer last (on the
fully built request), then issue the request through the transport.  The
second component records the wire requests actually handed to the
transport, so that "no HTTP request was issued" is expressible. -/
def Client.start (c : Client) (doReq : HRequest → Except GoErr Response)
    (req : Request) : Except GoErr Response × List HRequest :=
  let hreq := buildHReq c req
  match c.authorize with
  | some auth =>
    match auth hreq with
    | .error e => (.error (.apiError 0 none "attaching authorization" e), [])
    | .ok hreq2 =>
      match doReq hreq2 with
      | .error e => (.error (.apiError 0 none "issuing request" e), [hreq2])
      | .ok rsp => (.ok rsp, [hreq2])
  | none =>
    match doReq hreq with
    | .error e => (.error (.apiError 0 none "issuing request" e), [hreq])
    | .ok rsp => (.ok rsp, [hreq])

/-- `Client.receive`: drain the body, then branch on the HTTP status.
Statuses 200 and 201 succeed with the body; every other status yields an
`Error` carrying the status code and the raw body. -/
def Client.receive (rsp : Response) : Except GoErr String :=
  if rsp.statusCode = 200 ∨ rsp.statusCode = 201 then .ok rsp.body
  else .error (.apiError rsp.statusCode (some rsp.body)
    ("request failed: " ++ rsp.status) .noErr)

/-- `Client.finish`: classify the response via `receive`, then unmarshal the
body into a `Reply`; a decode failure yields an `Error` carrying the body
and the cause, success attaches the decoded rate limits.  `unm` stands for
`json.Unmarshal` into the envelope, `drl` for `decodeRateLimits`. -/
def Client.finish (unm : String → Except GoErr Reply)
    (drl : List (String × String) → Option RateLimit)
    (rsp : Response) : Except GoErr Reply :=
  match Client.receive rsp with
  | .error e => .error e
  | .ok body =>
    match unm body with
    | .error e => .error (.apiError 0 (some body) "decoding response body" e)
    | .ok reply => .ok { reply with rateLimit := drl rsp.headers }

/-- `Client.Call`: `start` then `finish`. -/
def Client.Call (unm : String → Except GoErr Reply)
    (drl : List (String × String) → Option RateLimit)
    (c : Client) (doReq : HRequest → Except GoErr Response)
    (req : Request) : Except GoErr Reply :=
  match (Client.start c doReq req).1 with
  | .error e => .error e
  | .ok rsp => Client.finish unm drl rsp

/-- `Client.CallRaw`: `start` then `receive`, returning the undecoded body. -/
def Client.CallRaw (c : Client) (doReq : HRequest → Except GoErr Response)
    (req : Request) : Except GoErr String :=
  match (Client.start c doReq req).1 with
  | .error e => .error e
  | .ok rsp => Client.receive rsp

/-- The decode-and-dispatch loop of `stream`: decode one JSON value at a
time; on a clean end of stream return `nil`; on a decoder failure or an
unmarshal failure return the corresponding decode `Error`; otherwise invoke
the callback, stopping with an `Error` tagged "callback" when it reports an
error.  The second component records the replies delivered to the callback,
in delivery order. -/
def streamLoop (unm : String → Except GoErr Reply) (f : Reply → Option GoErr) :
    List String → StreamTail → Option GoErr × List Reply
  | [], .eofEnd => (none, [])
  | [], .decodeFailure e => (some (.apiError 0 none "decoding message from stream" e), [])
  | next :: rest, tail =>
    match unm next with
    | .error e => (some (.apiError 0 (some next) "decoding stream response" e), [])
    | .ok reply =>
      match f reply with
      | some e => (some (.apiError 0 none "callback" e), [reply])
      | none =>
        let r := streamLoop unm f rest tail
        (r.1, reply :: r.2)

/-- `Client.stream`: the streaming entry point.  A status other than 200
yields an `Error` carrying the status and the raw body without invoking the
callback; on 200 the decode-and-dispatch loop runs over the body's JSON
values. -/
def Client.stream (unm : String → Except GoErr Reply) (rsp : Response)
    (f : Reply → Option GoErr) : Option GoErr × List Reply :=
  if rsp.statusCode ≠ 200 then
    (some (.apiError rsp.statusCode (some rsp.body)
      ("request failed: " ++ rsp.status) .noErr), [])
  else streamLoop unm f rsp.messages rsp.tail

/-- `Client.Stream`: `start`, then `stream`, then the boundary translation:
an outcome matching `ErrStopStreaming` under `errors.Is` becomes `nil`; an
outcome not matching `io.EOF` is returned as is when it is already an
`*Error` and wrapped as an `Error` tagged "callback" otherwise; an outcome
matching `io.EOF` becomes `nil`.  The second component again records the
delivered replies. -/
def Client.Stream (unm : String → Except GoErr Reply) (c : Client)
    (doReq : HRequest → Except GoErr Response) (req : Request)
    (f : Reply → Option GoErr) : Option GoErr × List Reply :=
  match Client.start c doReq req with
  | (.error e, _) => (some e, [])
  | (.ok rsp, _) =>
    let r := Client.stream unm rsp f
    if errorsIsO r.1 .stopStreaming then (none, r.2)
    else if errorsIsO r.1 .eof then (none, r.2)
    else
      match r.1 with
      | some (.apiError s d m c2) => (some (.apiError s d m c2), r.2)
      | some e => (some (.apiError 0 none "callback" e), r.2)
      | none => (some (.apiError 0 none "callback" .noErr), r.2)

end Twitter

namespace Twitter

/-! ## Helper lemmas and concrete fixtures -/

/-- Looking up a name right after assigning it yields exactly the assigned
values. -/
theorem Params.lookup_update (p : Params) (name : String) (vs : List String) :
    Params.lookup (Params.update p name vs) name = some vs := by
  induction p with
  | nil => simp [Params.update, Params.lookup]
  | cons kv rest ih =>
    by_cases h : kv.1 = name
    · simp [Params.update, Params.lookup, h]
    · simp [Params.update, Params.lookup, h, ih]

/-- An unmarshaller that accepts every body, storing it as the payload. -/
def unmOk : String → Except GoErr Reply := fun s => .ok { data := s }

/-- A callback that always continues. -/
def cbNone : Reply → Option GoErr := fun _ => none

/-- A callback that reports `io.EOF` (an error other than the sentinel). -/
def cbEof : Reply → Option GoErr := fun _ => some .eof

/-- A rate-limit decoder finding no counters. -/
def drl0 : List (String × String) → Option RateLimit := fun _ => none

/-- A minimal request fixture. -/
def req0 : Request := { method := "tweets" }

/-- A client fixture with default configuration. -/
def cli0 : Client := {}

/-- A 200 response whose stream body ends cleanly with no values. -/
def rsp200empty : Response := { statusCode := 200, status := "200 OK", body := "" }

/-- A 200 response whose stream body holds one value, then a clean end. -/
def rsp200one : Response :=
  { statusCode := 200, status := "200 OK", body := "m1", messages := ["m1"] }

/-- A transport that always answers with the given response. -/
def doRsp (rsp : Response) : HRequest → Except GoErr Response := fun _ => .ok rsp

end Twitter

namespace Twitter

/-- C10: `Add` with zero values is a no-op: it creates no entry for the name
(not even an empty one) and leaves every existing entry unchanged. -/
theorem params_add_nil_noop (p : Params) (name : String) :
    Params.add p name [] = p := by
  simp [Params.add]

/-- C5: after any sequence of `Add` calls for a name followed by `Set` of a
value `v`, the name holds exactly the single value `v`, and the encoded
query value for that name is `v` alone. -/
theorem params_set_after_adds (p : Params) (name v : String)
    (vss : List (List String)) :
    Params.lookup (Params.set (vss.foldl (fun acc vs => Params.add acc name vs) p) name v) name
        = some [v]
    ∧ Params.queryValue (Params.set (vss.foldl (fun acc vs => Params.add acc name vs) p) name v) name
        = some v := by
  refine ⟨Params.lookup_update _ _ _, ?_⟩
  simp [Params.queryValue, Params.set, Params.lookup_update, joinComma]

/-- C1: code-bug exhibit.  A stream whose body reaches a clean end of
stream with the callback never reporting an error makes `Stream` return a
non-nil `Error` tagged "callback" with a nil cause, instead of the nil
outcome the specification states: `stream` returns nil on the clean end,
and the `errors.Is(err, io.EOF)` test in `Stream` sends that nil into the
error-wrapping branch. -/
theorem stream_clean_end_returns_error :
    Client.Stream unmOk cli0 (doRsp rsp200empty) req0 cbNone
      = (some (.apiError 0 none "callback" .noErr), []) := by
  rfl

/-- C2: code-bug exhibit.  A callback that reports `io.EOF` — a non-nil
error other than the stop sentinel — makes `Stream` return nil: `stream`
wraps the callback error as an `Error` tagged "callback" whose cause is
`io.EOF`, and the `errors.Is(err, io.EOF)` test in `Stream` unwraps to the
cause and swallows it, instead of propagating the wrapped callback error as
the specification states. -/
theorem stream_callback_eof_swallowed :
    Client.Stream unmOk cli0 (doRsp rsp200one) req0 cbEof
      = (none, [{ data := "m1" }]) := by
  rfl

end Twitter

namespace Twitter

/-- Every error the decode-and-dispatch loop itself produces has status
zero: decode and callback failures carry no HTTP status. -/
theorem streamLoop_fst_statusOf (unm : String → Except GoErr Reply)
    (f : Reply → Option GoErr) (msgs : List String) :
    ∀ (tail : StreamTail) (e : GoErr),
      (streamLoop unm f msgs tail).1 = some e → e.statusOf = 0 := by
  induction msgs with
  | nil =>
    intro tail e h
    cases tail with
    | eofEnd => simp [streamLoop] at h
    | decodeFailure e2 =>
      simp [streamLoop] at h
      subst h
      rfl
  | cons next rest ih =>
    intro tail e h
    cases hu : unm next with
    | error e2 =>
      simp [streamLoop, hu] at h
      subst h
      rfl
    | ok reply =>
      cases hf : f reply with
      | some e2 =>
        simp [streamLoop, hu, hf] at h
        subst h
        rfl
      | none =>
        simp [streamLoop, hu, hf] at h
        exact ih tail e h

/-- Every error `start` produces has status zero: request-build,
authorization and transport failures carry no HTTP status. -/
theorem start_err_statusOf (c : Client) (doReq : HRequest → Except GoErr Response)
    (req : Request) (e : GoErr) :
    (Client.start c doReq req).1 = .error e → e.statusOf = 0 := by
  intro h
  unfold Client.start at h
  cases ha : c.authorize with
  | none =>
    rw [ha] at h
    cases hd : doReq (buildHReq c req) with
    | error e2 =>
      simp [hd] at h
      subst h
      rfl
    | ok rsp => simp [hd] at h
  | some auth =>
    rw [ha] at h
    cases hau : auth (buildHReq c req) with
    | error e2 =>
      simp [hau] at h
      subst h
      rfl
    | ok hreq2 =>
      cases hd : doReq hreq2 with
      | error e2 =>
        simp [hau, hd] at h
        subst h
        rfl
      | ok rsp => simp [hau, hd] at h

/-- A streaming response with status 201 and one body value. -/
def rsp201 : Response :=
  { statusCode := 201, status := "201 Created", body := "m1", messages := ["m1"] }

/-- A non-success response as seen by the streaming entry point. -/
def rsp404s : Response := { statusCode := 404, status := "404 Not Found", body := "nf" }

/-- C4 counterexample: a streaming response with status 201 does not enter
the streaming loop — the callback is never invoked and `stream` fails with
an `Error` carrying status 201 and the raw body, because the streaming
entry point accepts exactly status 200. -/
theorem stream_201_does_not_enter_loop :
    Client.stream unmOk rsp201 cbNone
      = (some (.apiError 201 (some "m1") "request failed: 201 Created" .noErr), []) := by
  rfl

/-- C4 amended: response classification differs between the streaming entry
point and `Call`/`CallRaw`.  The entry point of `Stream` treats exactly
status 200 as success: any other status — 201 included — yields an `Error`
carrying that status and the raw body, with no callback invocation, and
this outcome occurs exactly for non-200 statuses.  `receive` (shared by
`Call` and `CallRaw`) fails exactly for statuses outside {200, 201}, and
its error carries the status code and the raw body. -/
theorem stream_success_is_200_only (unm : String → Except GoErr Reply)
    (rsp : Response) (f : Reply → Option GoErr) :
    (Client.stream unm rsp f
        = (some (.apiError rsp.statusCode (some rsp.body)
            ("request failed: " ++ rsp.status) .noErr), [])
      ↔ rsp.statusCode ≠ 200)
    ∧ ((∃ e, Client.receive rsp = .error e)
      ↔ ¬ (rsp.statusCode = 200 ∨ rsp.statusCode = 201))
    ∧ (∀ e, Client.receive rsp = .error e →
        e = .apiError rsp.statusCode (some rsp.body)
          ("request failed: " ++ rsp.status) .noErr) := by
  refine ⟨⟨?_, ?_⟩, ?_, ?_⟩
  · intro h h200
    rw [Client.stream, if_neg (by simp [h200])] at h
    have h1 : (streamLoop unm f rsp.messages rsp.tail).1
        = some (.apiError rsp.statusCode (some rsp.body)
            ("request failed: " ++ rsp.status) .noErr) := by
      rw [h]
    have h0 := streamLoop_fst_statusOf unm f rsp.messages rsp.tail _ h1
    rw [GoErr.statusOf, h200] at h0
    exact absurd h0 (by decide)
  · intro h
    rw [Client.stream, if_pos (by simpa using h)]
  · constructor
    · rintro ⟨e, he⟩
      intro hc
      rw [Client.receive, if_pos hc] at he
      exact Except.noConfusion he
    · intro hc
      exact ⟨_, by rw [Client.receive, if_neg hc]⟩
  · intro e he
    by_cases hc : rsp.statusCode = 200 ∨ rsp.statusCode = 201
    · rw [Client.receive, if_pos hc] at he
      exact absurd he (by simp)
    · rw [Client.receive, if_neg hc] at he
      exact (Except.error.injEq _ _).mp he.symm

/-- Witness for the amended C4 classification at a concrete non-200
streaming response. -/
theorem stream_success_is_200_only_witness :
    Client.stream unmOk rsp404s cbNone
      = (some (.apiError 404 (some "nf") "request failed: 404 Not Found" .noErr), []) :=
  (stream_success_is_200_only unmOk rsp404s cbNone).1.mpr (by decide)

end Twitter

namespace Twitter

/-- An unmarshaller that rejects every body. -/
def unmFail : String → Except GoErr Reply := fun _ => .error (.other "invalid json")

/-- A 200 response with body "x". -/
def rsp200x : Response := { statusCode := 200, status := "200 OK", body := "x" }

/-- A 200 response with body "v". -/
def rsp200v : Response := { statusCode := 200, status := "200 OK", body := "v" }

/-- C6 counterexample: a decode failure on a 200 response makes `finish`
produce an `Error` whose status is zero and which nevertheless carries the
received response body — so a zero-status error can carry a received body. -/
theorem finish_zero_status_carries_body :
    Client.finish unmFail drl0 rsp200x
      = .error (.apiError 0 (some "x") "decoding response body" (.other "invalid json"))
    ∧ (GoErr.apiError 0 (some "x") "decoding response body" (.other "invalid json")).statusOf = 0
    ∧ (GoErr.apiError 0 (some "x") "decoding response body" (.other "invalid json")).dataOf
        ≠ none := by
  refine ⟨rfl, rfl, ?_⟩
  simp [GoErr.dataOf]

/-- C6 amended: every `Error` produced by `Call` with a non-zero status
code is the status-classification error: it carries exactly the response's
status code together with the raw response body.  Zero-status errors are
the transport, authorization and decode failures, and a decode failure may
itself carry the received body (offending bytes), contrary to the original
claim's final part. -/
theorem call_nonzero_status_carries_body (unm : String → Except GoErr Reply)
    (drl : List (String × String) → Option RateLimit) (c : Client)
    (doReq : HRequest → Except GoErr Response) (req : Request) (e : GoErr)
    (he : Client.Call unm drl c doReq req = .error e) (hs : e.statusOf ≠ 0) :
    ∃ rsp, (Client.start c doReq req).1 = .ok rsp ∧
      e = .apiError rsp.statusCode (some rsp.body)
        ("request failed: " ++ rsp.status) .noErr := by
  unfold Client.Call at he
  cases hst : (Client.start c doReq req).1 with
  | error e2 =>
    rw [hst] at he
    simp at he
    subst he
    exact absurd (start_err_statusOf c doReq req _ hst) hs
  | ok rsp =>
    rw [hst] at he
    by_cases hc : rsp.statusCode = 200 ∨ rsp.statusCode = 201
    · cases hu : unm rsp.body with
      | error e2 =>
        simp [Client.finish, Client.receive, hc, hu] at he
        subst he
        exact absurd rfl hs
      | ok r => simp [Client.finish, Client.receive, hc, hu] at he
    · simp [Client.finish, Client.receive, hc] at he
      exact ⟨rsp, rfl, he.symm⟩

/-- Witness for the amended C6 at a concrete 404 response: the produced
nonzero-status error is exactly the status error carrying the raw body. -/
theorem call_nonzero_status_carries_body_witness :
    Client.Call unmOk drl0 cli0 (doRsp rsp404s) req0
        = .error (.apiError 404 (some "nf") "request failed: 404 Not Found" .noErr)
    ∧ ∃ rsp, (Client.start cli0 (doRsp rsp404s) req0).1 = .ok rsp ∧
        GoErr.apiError 404 (some "nf") "request failed: 404 Not Found" .noErr
          = .apiError rsp.statusCode (some rsp.body)
            ("request failed: " ++ rsp.status) .noErr :=
  ⟨rfl, call_nonzero_status_carries_body unmOk drl0 cli0 (doRsp rsp404s) req0 _
    rfl (by decide)⟩

/-- C3: for a call whose round-trip produced a response, `Call` fails with
an `Error` exactly when the status is outside {200, 201} or the body does
not unmarshal into the envelope; a status in {200, 201} with a body that
unmarshals never yields an error. -/
theorem call_error_iff_status_or_decode (unm : String → Except GoErr Reply)
    (drl : List (String × String) → Option RateLimit) (c : Client)
    (doReq : HRequest → Except GoErr Response) (req : Request) (rsp : Response)
    (h : (Client.start c doReq req).1 = .ok rsp) :
    (∃ e, Client.Call unm drl c doReq req = .error e) ↔
      (¬ (rsp.statusCode = 200 ∨ rsp.statusCode = 201)
        ∨ ∃ e2, unm rsp.body = .error e2) := by
  by_cases hc : rsp.statusCode = 200 ∨ rsp.statusCode = 201
  · cases hu : unm rsp.body with
    | error e2 => simp [Client.Call, h, Client.finish, Client.receive, hc, hu]
    | ok r => simp [Client.Call, h, Client.finish, Client.receive, hc, hu]
  · simp [Client.Call, h, Client.finish, Client.receive, hc]

/-- Witness for C3 at a concrete 200 response whose body unmarshals: the
round-trip produced the response and `Call` yields no error. -/
theorem call_error_iff_status_or_decode_witness :
    (Client.start cli0 (doRsp rsp200v) req0).1 = .ok rsp200v ∧
    ((∃ e, Client.Call unmOk drl0 cli0 (doRsp rsp200v) req0 = .error e) ↔
      (¬ (rsp200v.statusCode = 200 ∨ rsp200v.statusCode = 201)
        ∨ ∃ e2, unmOk rsp200v.body = .error e2)) :=
  ⟨rfl, call_error_iff_status_or_decode unmOk drl0 cli0 (doRsp rsp200v) req0 rsp200v rfl⟩

/-- C7: the authorizer is applied to the fully built wire request — after
URL resolution, query encoding, body and content-type attachment and the
HTTP verb, all of which `buildHReq` performs — and when it fails, `start`
aborts with an `Error` tagged "attaching authorization" wrapping the
authorizer's error, having issued no request to the transport. -/
theorem start_auth_failure_aborts (c : Client)
    (doReq : HRequest → Except GoErr Response) (req : Request)
    (auth : HRequest → Except GoErr HRequest) (e : GoErr)
    (ha : c.authorize = some auth) (he : auth (buildHReq c req) = .error e) :
    Client.start c doReq req
      = (.error (.apiError 0 none "attaching authorization" e), []) := by
  simp [Client.start, ha, he]

/-- An authorizer that always refuses. -/
def authFail : HRequest → Except GoErr HRequest := fun _ => .error (.other "no credentials")

/-- A client fixture whose authorizer refuses. -/
def cliAF : Client := { authorize := some authFail }

/-- Witness for C7 at a concrete refusing authorizer: the call aborts with
the tagged error and the transport receives no request. -/
theorem start_auth_failure_aborts_witness :
    cliAF.authorize = some authFail
    ∧ authFail (buildHReq cliAF req0) = .error (.other "no credentials")
    ∧ Client.start cliAF (doRsp rsp200v) req0
        = (.error (.apiError 0 none "attaching authorization" (.other "no credentials")), []) :=
  ⟨rfl, rfl, start_auth_failure_aborts cliAF (doRsp rsp200v) req0 authFail
    (.other "no credentials") rfl rfl⟩

end Twitter

namespace Twitter

/-- The reply a successful unmarshal yields, `none` on failure. -/
def okOf : Except GoErr Reply → Option Reply
  | .ok r => some r
  | .error _ => none

/-- `okOf` on a successful unmarshal. -/
theorem okOf_ok (r : Reply) : okOf (.ok r) = some r := rfl

/-- `okOf` on a failed unmarshal. -/
theorem okOf_error (e : GoErr) : okOf (.error e) = none := rfl

/-- The loop's deliveries are an initial segment of the decoded values of
the body, in body order: whatever the callback and the unmarshaller do,
nothing is reordered, duplicated or skipped. -/
theorem streamLoop_deliveries_le (unm : String → Except GoErr Reply)
    (f : Reply → Option GoErr) (msgs : List String) :
    ∀ tail : StreamTail, ∃ t,
      msgs.filterMap (fun m => okOf (unm m)) = (streamLoop unm f msgs tail).2 ++ t := by
  induction msgs with
  | nil =>
    intro tail
    cases tail with
    | eofEnd => exact ⟨[], by simp [streamLoop]⟩
    | decodeFailure e => exact ⟨[], by simp [streamLoop]⟩
  | cons next rest ih =>
    intro tail
    cases hu : unm next with
    | error e =>
      exact ⟨rest.filterMap (fun m => okOf (unm m)), by
        simp [streamLoop, hu, okOf_error]⟩
    | ok reply =>
      cases hf : f reply with
      | some e =>
        exact ⟨rest.filterMap (fun m => okOf (unm m)), by
          simp [streamLoop, hu, hf, okOf_ok]⟩
      | none =>
        obtain ⟨t, ht⟩ := ih tail
        exact ⟨t, by simp [streamLoop, hu, hf, okOf_ok, ht]⟩

/-- When every value of the body unmarshals and the callback keeps
continuing, the loop delivers exactly the decoded values of the body, in
body order, one per callback invocation. -/
theorem streamLoop_deliveries_eq (unm : String → Except GoErr Reply)
    (f : Reply → Option GoErr) (hf : ∀ r, f r = none) (msgs : List String) :
    ∀ tail : StreamTail, (∀ m ∈ msgs, (okOf (unm m)).isSome = true) →
      (streamLoop unm f msgs tail).2 = msgs.filterMap (fun m => okOf (unm m)) := by
  induction msgs with
  | nil =>
    intro tail _
    cases tail with
    | eofEnd => simp [streamLoop]
    | decodeFailure e => simp [streamLoop]
  | cons next rest ih =>
    intro tail h
    cases hu : unm next with
    | error e =>
      have hn := h next (by simp)
      rw [hu, okOf_error] at hn
      simp at hn
    | ok reply =>
      have hrest : ∀ m ∈ rest, (okOf (unm m)).isSome = true := by
        intro m hm
        exact h m (by simp [hm])
      simp [streamLoop, hu, hf reply, okOf_ok, ih tail hrest]

/-- The boundary translation in `Stream` keeps the delivery record of
`stream` intact. -/
theorem Stream_snd_eq (unm : String → Except GoErr Reply) (c : Client)
    (doReq : HRequest → Except GoErr Response) (req : Request)
    (f : Reply → Option GoErr) (rsp : Response)
    (hst : (Client.start c doReq req).1 = .ok rsp) :
    (Client.Stream unm c doReq req f).2 = (Client.stream unm rsp f).2 := by
  unfold Client.Stream
  rcases hp : Client.start c doReq req with ⟨res, issued⟩
  rw [hp] at hst
  simp at hst
  subst hst
  rcases hs : Client.stream unm rsp f with ⟨err, ds⟩
  by_cases h1 : errorsIsO err .stopStreaming = true
  · simp [hs, h1]
  · by_cases h2 : errorsIsO err .eof = true
    · simp [hs, h1, h2]
    · cases err with
      | none => simp [hs, h1, h2]
      | some e => cases e <;> simp [hs, h1, h2]

/-- C8: within one stream, `Stream` delivers to the callback exactly the
values of the body in body order: always an initial segment of the decoded
values (nothing skipped, duplicated or reordered), and when every value
unmarshals and the callback keeps continuing, exactly all of them, one per
callback invocation. -/
theorem Stream_delivers_in_order (unm : String → Except GoErr Reply)
    (c : Client) (doReq : HRequest → Except GoErr Response) (req : Request)
    (f : Reply → Option GoErr) (rsp : Response)
    (hst : (Client.start c doReq req).1 = .ok rsp)
    (h200 : rsp.statusCode = 200) :
    (∃ t, rsp.messages.filterMap (fun m => okOf (unm m))
        = (Client.Stream unm c doReq req f).2 ++ t)
    ∧ ((∀ r, f r = none) → (∀ m ∈ rsp.messages, (okOf (unm m)).isSome = true) →
        (Client.Stream unm c doReq req f).2
          = rsp.messages.filterMap (fun m => okOf (unm m))) := by
  have h2 := Stream_snd_eq unm c doReq req f rsp hst
  have hstream : Client.stream unm rsp f = streamLoop unm f rsp.messages rsp.tail := by
    rw [Client.stream, if_neg (by simp [h200])]
  constructor
  · rw [h2, hstream]
    exact streamLoop_deliveries_le unm f rsp.messages rsp.tail
  · intro hf hall
    rw [h2, hstream]
    exact streamLoop_deliveries_eq unm f hf rsp.messages rsp.tail hall

/-- A 200 response whose stream body holds two values. -/
def rsp200two : Response :=
  { statusCode := 200, status := "200 OK", body := "ab", messages := ["a", "b"] }

/-- Witness for C8 at a concrete two-value stream with an accepting
unmarshaller and an always-continuing callback. -/
theorem Stream_delivers_in_order_witness :
    ((Client.start cli0 (doRsp rsp200two) req0).1 = .ok rsp200two
      ∧ rsp200two.statusCode = 200)
    ∧ ((∃ t, rsp200two.messages.filterMap (fun m => okOf (unmOk m))
          = (Client.Stream unmOk cli0 (doRsp rsp200two) req0 cbNone).2 ++ t)
      ∧ ((∀ r, cbNone r = none)
          → (∀ m ∈ rsp200two.messages, (okOf (unmOk m)).isSome = true) →
          (Client.Stream unmOk cli0 (doRsp rsp200two) req0 cbNone).2
            = rsp200two.messages.filterMap (fun m => okOf (unmOk m)))) :=
  ⟨⟨rfl, rfl⟩,
    Stream_delivers_in_order unmOk cli0 (doRsp rsp200two) req0 cbNone rsp200two rfl rfl⟩

end Twitter
